import Mathlib

/-
Verification of the CampusDash order/cart core.

The data model is taken from types.ts; the order transaction engine from
services/mockBackend.ts (placeOrder, getUserOrders); the cart manager from
App.tsx (addToCart, updateQuantity).  IndexedDB tables are modelled as lists
of records, a Dexie 'rw' transaction as a function from the store state to
either an error (in which case the transaction aborts and the state is kept)
or the committed new state.  JavaScript numbers that hold stock counts,
quantities and prices are modelled as Int; identifiers and ISO timestamps as
String.  The nondeterministic inputs of placeOrder (Math.random-based id
suffix, new Date().toISOString()) are passed as explicit parameters.
-/

namespace CampusDash

/-- From types.ts: a Product record.  The optional tag and description
fields default to none. -/
structure Product where
  id : String
  name : String
  price : Int
  category : String
  image : String := ""
  tag : Option String := none
  description : Option String := none
  stock : Int
deriving Repr, DecidableEq

/-- From types.ts: CartItem extends Product with a quantity. -/
structure CartItem extends Product where
  quantity : Int
deriving Repr, DecidableEq

/-- From types.ts: the status union of an Order. -/
inductive OrderStatus where
  | confirmed
  | cancelled
  | pending
deriving Repr, DecidableEq

/-- The deliveryDetails field of an Order: hostel and room. -/
structure DeliveryDetails where
  hostel : String
  room : String
deriving Repr, DecidableEq

/-- From types.ts: an Order record. -/
structure Order where
  id : String
  userId : String
  items : List CartItem
  totalAmount : Int
  status : OrderStatus
  createdAt : String
  deliveryDetails : DeliveryDetails
deriving Repr, DecidableEq

/-- The persistent store: the products table and the orders table of the
Dexie database, each modelled as the list of its records. -/
structure DBState where
  products : List Product
  orders : List Order
deriving Repr, DecidableEq

/-- The one error placeOrder throws: the stock-insufficiency message
carrying the failing item's name and the reported remaining stock. -/
inductive OrderError where
  | insufficientStock (name : String) (left : Int)
deriving Repr, DecidableEq

/-- The test of one line in placeOrder's validation loop (step 2):
true when the product is missing or its stock is below the requested
quantity, i.e. the condition !product || product.stock < item.quantity. -/
def itemFails (products : List Product) (item : CartItem) : Bool :=
  match products.find? (fun p => p.id == item.id) with
  | none => true
  | some p => p.stock < item.quantity

/-- The remaining-stock figure interpolated into the thrown message,
product?.stock || 0: zero when the product is missing, and the or-with-zero
also maps a stored stock of 0 to 0. -/
def reportedStock : Option Product → Int
  | none => 0
  | some p => if p.stock = 0 then 0 else p.stock

/-- placeOrder's validation loop: the error thrown for the first failing
line, or none when every line passes. -/
def validateItems (products : List Product) : List CartItem → Option OrderError
  | [] => none
  | item :: rest =>
    if itemFails products item then
      some (OrderError.insufficientStock item.name
        (reportedStock (products.find? (fun p => p.id == item.id))))
    else validateItems products rest

/-- The callback of placeOrder's step-3 map: deduct from one product the
quantity of the first cart item that carries its id, if any. -/
def deductOne (items : List CartItem) (product : Product) : Product :=
  match items.find? (fun i => i.id == product.id) with
  | some item => { product with stock := product.stock - item.quantity }
  | none => product

/-- placeOrder step 3: map deductOne over the whole products table. -/
def deductStock (items : List CartItem) (products : List Product) :
    List Product :=
  products.map (deductOne items)

/-- services/mockBackend.ts placeOrder.  freshId stands for the random
suffix Math.random().toString(36).substr(2, 9).toUpperCase(); now stands
for new Date().toISOString().  The body runs inside a Dexie 'rw'
transaction, so a thrown error aborts with no state change: the caller
applying this function keeps the old state on Except.error. -/
def placeOrder (s : DBState) (userId : String) (items : List CartItem)
    (deliveryDetails : DeliveryDetails) (totalAmount : Int)
    (freshId : String) (now : String) : Except OrderError (DBState × Order) :=
  match validateItems s.products items with
  | some e => Except.error e
  | none =>
    let newOrder : Order :=
      { id := "ORD-" ++ freshId
        userId := userId
        items := items
        totalAmount := totalAmount
        status := OrderStatus.confirmed
        createdAt := now
        deliveryDetails := deliveryDetails }
    Except.ok
      ({ products := deductStock items s.products
         orders := s.orders ++ [newOrder] }, newOrder)

/-- The arguments of one placeOrder invocation, including its two
nondeterministic inputs. -/
structure Call where
  userId : String
  items : List CartItem
  deliveryDetails : DeliveryDetails
  totalAmount : Int
  freshId : String
  now : String
deriving Repr, DecidableEq

/-- The store state after one placeOrder call: the committed state on
success; on a thrown error the Dexie transaction rolls back, leaving the
old state. -/
def applyCall (s : DBState) (c : Call) : DBState :=
  match placeOrder s c.userId c.items c.deliveryDetails c.totalAmount
      c.freshId c.now with
  | Except.ok (s2, _) => s2
  | Except.error _ => s

/-- The store state after a sequence of placeOrder calls. -/
def applyCalls (s : DBState) : List Call → DBState
  | [] => s
  | c :: cs => applyCalls (applyCall s c) cs

/-- Total quantity a list of line items records for one product id. -/
def itemsQty (items : List CartItem) (pid : String) : Int :=
  ((items.filter (fun i => i.id == pid)).map (fun i => i.quantity)).sum

/-- Total quantity all confirmed orders in the store record for one
product id. -/
def confirmedQty (orders : List Order) (pid : String) : Int :=
  ((orders.filter (fun o => o.status == OrderStatus.confirmed)).map
    (fun o => itemsQty o.items pid)).sum

/-- The stock the products table holds for a product id (first record with
that id; 0 when absent). -/
def stockOf (products : List Product) (pid : String) : Int :=
  match products.find? (fun p => p.id == pid) with
  | some p => p.stock
  | none => 0

/-- The section-3 global invariant of the spec, relative to an assignment
of original stocks: every product's stock is nonnegative and equals its
original stock minus the total quantity of all confirmed orders that
reference it. -/
def StockInvariant (orig : String → Int) (s : DBState) : Prop :=
  ∀ p ∈ s.products, 0 ≤ p.stock ∧
    p.stock = orig p.id - confirmedQty s.orders p.id

instance (orig : String → Int) (s : DBState) :
    Decidable (StockInvariant orig s) :=
  inferInstanceAs (Decidable (∀ p ∈ s.products, 0 ≤ p.stock ∧
    p.stock = orig p.id - confirmedQty s.orders p.id))

/-- App.tsx addToCart: increment an existing line if its quantity is still
below the product's stock, append a fresh line of quantity 1 if the product
is absent and has stock, otherwise return the cart unchanged. -/
def addToCart (cart : List CartItem) (product : Product) : List CartItem :=
  match cart.find? (fun item => item.id == product.id) with
  | some existing =>
    if product.stock ≤ existing.quantity then cart
    else
      cart.map fun item =>
        if item.id == product.id then
          { item with quantity := item.quantity + 1 }
        else item
  | none =>
    if product.stock ≤ 0 then cart
    else cart ++ [{ toProduct := product, quantity := 1 }]

/-- App.tsx updateQuantity: on the line with the given id, add delta; if the
result exceeds the product's stock keep the line unchanged, otherwise set
the quantity to max 0 of the result; finally drop all lines whose quantity
is not positive. -/
def updateQuantity (cart : List CartItem) (products : List Product)
    (id : String) (delta : Int) : List CartItem :=
  (cart.map fun item =>
    if item.id == id then
      match products.find? (fun p => p.id == id) with
      | none => item
      | some product =>
        if product.stock < item.quantity + delta then item
        else { item with quantity := max 0 (item.quantity + delta) }
    else item).filter fun item => decide (0 < item.quantity)

/-- Quantity the cart holds for a product id (first line with that id;
0 when absent). -/
def cartQuantity (cart : List CartItem) (id : String) : Int :=
  match cart.find? (fun item => item.id == id) with
  | some item => item.quantity
  | none => 0

/-- n repeated addToCart calls for the same product, starting from the
empty cart. -/
def addTimes (product : Product) : Nat → List CartItem
  | 0 => []
  | n + 1 => addToCart (addTimes product n) product

/-- Code-point lexicographic comparison of character lists: the order the
JavaScript < and > relational operators induce on the ASCII ISO-timestamp
strings Dexie's sortBy comparator compares. -/
def charsLe : List Char → List Char → Bool
  | [], _ => true
  | _ :: _, [] => false
  | a :: as, b :: bs =>
    if a.toNat < b.toNat then true
    else if b.toNat < a.toNat then false
    else charsLe as bs

/-- Lexicographic ≤ on strings via their character lists. -/
def strLe (a b : String) : Bool := charsLe a.data b.data

/-- Dexie's equalsIgnoreCase: equality after lowercasing. -/
def eqIgnoreCase (a b : String) : Bool :=
  a.data.map Char.toLower == b.data.map Char.toLower

/-- The descending-timestamp relation getUserOrders sorts by: a comes
before b when b's createdAt is at most a's. -/
def createdDesc (a b : Order) : Prop := strLe b.createdAt a.createdAt = true

instance : DecidableRel createdDesc := fun a b =>
  inferInstanceAs (Decidable (strLe b.createdAt a.createdAt = true))

/-- services/mockBackend.ts getUserOrders:
orders.where('userId').equalsIgnoreCase(userId).reverse().sortBy('createdAt'),
i.e. filter the orders case-insensitively by user id, then sort by createdAt
with the direction reversed, giving a descending sort; Array.prototype.sort
is stable, modelled by the stable insertionSort. -/
def getUserOrders (s : DBState) (userId : String) : List Order :=
  List.insertionSort createdDesc
    (s.orders.filter fun o => eqIgnoreCase o.userId userId)

/-! ### Lemmas about the validation loop -/

theorem validateItems_eq_none_iff (ps : List Product) (items : List CartItem) :
    validateItems ps items = none ↔ ∀ i ∈ items, itemFails ps i = false := by
  induction items with
  | nil => simp [validateItems]
  | cons j rest ih =>
    cases hj : itemFails ps j
    · simp [validateItems, hj, ih]
    · simp [validateItems, hj]

theorem validateItems_ne_none (ps : List Product) (items : List CartItem)
    (i : CartItem) (hi : i ∈ items) (hf : itemFails ps i = true) :
    ∃ e, validateItems ps items = some e := by
  cases he : validateItems ps items with
  | some e => exact ⟨e, rfl⟩
  | none =>
    rw [validateItems_eq_none_iff] at he
    have := he i hi
    rw [hf] at this
    cases this

theorem itemFails_eq_false (ps : List Product) (i : CartItem)
    (h : itemFails ps i = false) :
    ∃ q, ps.find? (fun p => p.id == i.id) = some q ∧ i.quantity ≤ q.stock := by
  unfold itemFails at h
  cases hf : ps.find? (fun p => p.id == i.id) with
  | none => rw [hf] at h; cases h
  | some q =>
    rw [hf] at h
    exact ⟨q, rfl, le_of_not_lt (by simpa using h)⟩

/-! ### Lemmas about stock deduction -/

theorem deductOne_id (items : List CartItem) (p : Product) :
    (deductOne items p).id = p.id := by
  unfold deductOne
  cases items.find? (fun i => i.id == p.id) <;> rfl

theorem deductStock_nil (ps : List Product) : deductStock [] ps = ps := by
  unfold deductStock deductOne
  simp [List.find?]

theorem deductStock_id_map (items : List CartItem) (ps : List Product) :
    (deductStock items ps).map (fun p => p.id) = ps.map (fun p => p.id) := by
  unfold deductStock
  rw [List.map_map]
  apply List.map_congr_left
  intro p _
  simp [Function.comp, deductOne_id]

theorem find?_deductStock (items : List CartItem) (ps : List Product)
    (pid : String) :
    (deductStock items ps).find? (fun p => p.id == pid) =
      (ps.find? (fun p => p.id == pid)).map (deductOne items) := by
  unfold deductStock
  have hpred : ((fun p => p.id == pid) ∘ deductOne items) =
      (fun p : Product => p.id == pid) := by
    funext p
    simp [Function.comp, deductOne_id]
  rw [List.find?_map, hpred]

/-! ### find? on id-keyed tables -/

theorem find?_id_of_nodup {ps : List Product}
    (hnd : (ps.map (fun p => p.id)).Nodup) {p : Product} (hp : p ∈ ps) :
    ps.find? (fun x => x.id == p.id) = some p := by
  induction ps with
  | nil => cases hp
  | cons a t ih =>
    rw [List.map_cons, List.nodup_cons] at hnd
    rcases List.mem_cons.mp hp with rfl | hpt
    · simp [List.find?_cons]
    · have hne : (a.id == p.id) = false := by
        rw [beq_eq_false_iff_ne]
        intro h
        exact hnd.1 (h ▸ List.mem_map_of_mem (fun x => x.id) hpt)
      simp only [List.find?_cons, hne]
      exact ih hnd.2 hpt

/-! ### Lemmas about recorded quantities -/

theorem itemsQty_eq_zero_of_find?_none (items : List CartItem) (pid : String)
    (h : items.find? (fun i => i.id == pid) = none) : itemsQty items pid = 0 := by
  unfold itemsQty
  rw [List.find?_eq_none] at h
  have hfil : items.filter (fun i => i.id == pid) = [] :=
    List.filter_eq_nil_iff.mpr (fun a ha => by simpa using h a ha)
  rw [hfil]
  rfl

theorem itemsQty_of_nodup (items : List CartItem) (pid : String)
    (hnd : (items.map (fun i => i.id)).Nodup) :
    itemsQty items pid =
      match items.find? (fun i => i.id == pid) with
      | some it => it.quantity
      | none => 0 := by
  induction items with
  | nil => rfl
  | cons j rest ih =>
    rw [List.map_cons, List.nodup_cons] at hnd
    cases hj : (j.id == pid)
    · have : itemsQty (j :: rest) pid = itemsQty rest pid := by
        unfold itemsQty
        rw [List.filter_cons_of_neg (by simp [hj])]
      rw [this, List.find?_cons, hj]
      exact ih hnd.2
    · have hjid : j.id = pid := beq_iff_eq.mp hj
      have hrest : rest.find? (fun i => i.id == pid) = none := by
        rw [List.find?_eq_none]
        intro x hx hmatch
        have hxid : x.id = pid := beq_iff_eq.mp (by simpa using hmatch)
        exact hnd.1 (by
          rw [hjid, ← hxid]
          exact List.mem_map_of_mem (fun i => i.id) hx)
      have h0 : itemsQty rest pid = 0 := itemsQty_eq_zero_of_find?_none rest pid hrest
      have : itemsQty (j :: rest) pid = j.quantity + itemsQty rest pid := by
        unfold itemsQty
        rw [List.filter_cons_of_pos (by simp [hj])]
        simp
      rw [this, h0, List.find?_cons, hj]
      simp

theorem confirmedQty_append (os : List Order) (o : Order) (pid : String) :
    confirmedQty (os ++ [o]) pid =
      confirmedQty os pid +
        (if o.status = OrderStatus.confirmed then itemsQty o.items pid else 0) := by
  unfold confirmedQty
  rw [List.filter_append, List.map_append, List.sum_append]
  congr 1
  by_cases h : o.status = OrderStatus.confirmed
  · rw [if_pos h]
    rw [List.filter_cons_of_pos (by simpa using h)]
    simp
  · rw [if_neg h]
    rw [List.filter_cons_of_neg (by simpa using h)]
    simp

/-! ### Shape of placeOrder results -/

theorem placeOrder_ok_shape {s : DBState} {uid : String} {items : List CartItem}
    {d : DeliveryDetails} {t : Int} {f now : String} {s2 : DBState} {o : Order}
    (h : placeOrder s uid items d t f now = Except.ok (s2, o)) :
    s2.products = deductStock items s.products ∧
    s2.orders = s.orders ++ [o] ∧
    o = { id := "ORD-" ++ f, userId := uid, items := items, totalAmount := t,
          status := OrderStatus.confirmed, createdAt := now,
          deliveryDetails := d } ∧
    validateItems s.products items = none := by
  unfold placeOrder at h
  cases hv : validateItems s.products items with
  | some e => rw [hv] at h; cases h
  | none =>
    rw [hv] at h
    injection h with h2
    have hs2 := congrArg Prod.fst h2
    have ho := congrArg Prod.snd h2
    simp only at hs2 ho
    subst ho
    exact ⟨by rw [← hs2], by rw [← hs2], rfl, rfl⟩

theorem applyCall_of_error {s : DBState} {c : Call} {e : OrderError}
    (h : placeOrder s c.userId c.items c.deliveryDetails c.totalAmount
      c.freshId c.now = Except.error e) : applyCall s c = s := by
  unfold applyCall
  rw [h]

theorem applyCall_of_ok {s : DBState} {c : Call} {s2 : DBState} {o : Order}
    (h : placeOrder s c.userId c.items c.deliveryDetails c.totalAmount
      c.freshId c.now = Except.ok (s2, o)) : applyCall s c = s2 := by
  unfold applyCall
  rw [h]

/-! ### The order store only ever grows by appends -/

theorem mem_orders_applyCall {o : Order} (s : DBState) (c : Call)
    (h : o ∈ s.orders) : o ∈ (applyCall s c).orders := by
  cases hp : placeOrder s c.userId c.items c.deliveryDetails c.totalAmount
      c.freshId c.now with
  | error e => rw [applyCall_of_error hp]; exact h
  | ok p =>
    obtain ⟨s2, o2⟩ := p
    rw [applyCall_of_ok hp, (placeOrder_ok_shape hp).2.1]
    exact List.mem_append_left _ h

theorem mem_orders_applyCalls {o : Order} (s : DBState) (cs : List Call)
    (h : o ∈ s.orders) : o ∈ (applyCalls s cs).orders := by
  induction cs generalizing s with
  | nil => exact h
  | cons c cs ih => exact ih _ (mem_orders_applyCall s c h)

/-! ### Preservation of the global stock invariant -/

theorem applyCall_id_map (s : DBState) (c : Call) :
    (applyCall s c).products.map (fun p => p.id) =
      s.products.map (fun p => p.id) := by
  cases hp : placeOrder s c.userId c.items c.deliveryDetails c.totalAmount
      c.freshId c.now with
  | error e => rw [applyCall_of_error hp]
  | ok p =>
    obtain ⟨s2, o2⟩ := p
    rw [applyCall_of_ok hp, (placeOrder_ok_shape hp).1, deductStock_id_map]

theorem applyCall_invariant (orig : String → Int) (s : DBState) (c : Call)
    (hids : (s.products.map (fun p => p.id)).Nodup)
    (hitems : (c.items.map (fun i => i.id)).Nodup)
    (hinv : StockInvariant orig s) : StockInvariant orig (applyCall s c) := by
  cases hp : placeOrder s c.userId c.items c.deliveryDetails c.totalAmount
      c.freshId c.now with
  | error e => rw [applyCall_of_error hp]; exact hinv
  | ok pr =>
    obtain ⟨s2, o2⟩ := pr
    rw [applyCall_of_ok hp]
    obtain ⟨hprod, hord, ho2, hval⟩ := placeOrder_ok_shape hp
    intro p2 hp2
    rw [hprod] at hp2
    obtain ⟨p, hp, rfl⟩ := List.mem_map.mp hp2
    obtain ⟨hnn, heq⟩ := hinv p hp
    have hitems2 : o2.items = c.items := by rw [ho2]
    have hstat : o2.status = OrderStatus.confirmed := by rw [ho2]
    rw [hord, deductOne_id, confirmedQty_append, hitems2, if_pos hstat]
    rw [validateItems_eq_none_iff] at hval
    cases hfind : c.items.find? (fun i => i.id == p.id) with
    | none =>
      have hded : deductOne c.items p = p := by
        unfold deductOne
        rw [hfind]
      have hq : itemsQty c.items p.id = 0 :=
        itemsQty_eq_zero_of_find?_none _ _ hfind
      rw [hded, hq]
      exact ⟨hnn, by omega⟩
    | some it =>
      have hitmem : it ∈ c.items := List.mem_of_find?_eq_some hfind
      have hitid : it.id = p.id := by
        have h1 := List.find?_some hfind
        simpa using h1
      have hq : itemsQty c.items p.id = it.quantity := by
        rw [itemsQty_of_nodup c.items p.id hitems, hfind]
      obtain ⟨q, hqfind, hqle⟩ := itemFails_eq_false _ _ (hval it hitmem)
      rw [hitid, find?_id_of_nodup hids hp] at hqfind
      injection hqfind with hqp
      subst hqp
      have hded : deductOne c.items p =
          { p with stock := p.stock - it.quantity } := by
        unfold deductOne
        rw [hfind]
      rw [hded, hq]
      refine ⟨?_, ?_⟩
      · show 0 ≤ p.stock - it.quantity
        omega
      · show p.stock - it.quantity =
          orig p.id - (confirmedQty s.orders p.id + it.quantity)
        omega

/-! ### The lexicographic timestamp order is total and transitive -/

theorem charsLe_total : ∀ as bs : List Char,
    charsLe as bs = true ∨ charsLe bs as = true
  | [], _ => Or.inl rfl
  | _ :: _, [] => Or.inr rfl
  | a :: as, b :: bs => by
    rcases Nat.lt_trichotomy a.toNat b.toNat with h | h | h
    · left
      simp [charsLe, h]
    · have h1 : ¬ a.toNat < b.toNat := by omega
      have h2 : ¬ b.toNat < a.toNat := by omega
      simp only [charsLe, if_neg h1, if_neg h2]
      exact charsLe_total as bs
    · right
      simp [charsLe, h]

theorem charsLe_trans : ∀ as bs cs : List Char,
    charsLe as bs = true → charsLe bs cs = true → charsLe as cs = true
  | [], _, _ => fun _ _ => rfl
  | _ :: _, [], _ => fun h _ => by cases h
  | _ :: _, _ :: _, [] => fun _ h => by cases h
  | a :: as, b :: bs, c :: cs => fun h1 h2 => by
    simp only [charsLe] at h1 h2 ⊢
    by_cases hab : a.toNat < b.toNat
    · by_cases hbc : b.toNat < c.toNat
      · rw [if_pos (by omega : a.toNat < c.toNat)]
      · rw [if_neg hbc] at h2
        by_cases hcb : c.toNat < b.toNat
        · rw [if_pos hcb] at h2
          cases h2
        · rw [if_pos (by omega : a.toNat < c.toNat)]
    · rw [if_neg hab] at h1
      by_cases hba : b.toNat < a.toNat
      · rw [if_pos hba] at h1
        cases h1
      · rw [if_neg hba] at h1
        by_cases hbc : b.toNat < c.toNat
        · rw [if_pos (by omega : a.toNat < c.toNat)]
        · rw [if_neg hbc] at h2
          by_cases hcb : c.toNat < b.toNat
          · rw [if_pos hcb] at h2
            cases h2
          · rw [if_neg hcb] at h2
            rw [if_neg (by omega : ¬ a.toNat < c.toNat),
              if_neg (by omega : ¬ c.toNat < a.toNat)]
            exact charsLe_trans as bs cs h1 h2

theorem strLe_total (a b : String) : strLe a b = true ∨ strLe b a = true :=
  charsLe_total a.data b.data

theorem strLe_trans {a b c : String} (h1 : strLe a b = true)
    (h2 : strLe b c = true) : strLe a c = true :=
  charsLe_trans a.data b.data c.data h1 h2

instance : IsTotal Order createdDesc :=
  ⟨fun a b => (strLe_total b.createdAt a.createdAt).elim Or.inl Or.inr⟩

instance : IsTrans Order createdDesc :=
  ⟨fun _ _ _ h1 h2 => strLe_trans h2 h1⟩

/-! ### Characterisation of updateQuantity -/

theorem map_skip_of_no_match (id : String) (f : CartItem → CartItem)
    (rest : List CartItem) (hno : ∀ i ∈ rest, (i.id == id) = false) :
    rest.map (fun i => if i.id == id then f i else i) = rest := by
  induction rest with
  | nil => rfl
  | cons x t ih =>
    rw [List.map_cons, if_neg (by simp [hno x (List.mem_cons_self x t)]),
      ih fun i hi => hno i (List.mem_cons_of_mem x hi)]

theorem updateQuantity_no_match (cart : List CartItem)
    (products : List Product) (id : String) (delta : Int)
    (hpos : ∀ i ∈ cart, 0 < i.quantity)
    (hno : ∀ i ∈ cart, (i.id == id) = false) :
    updateQuantity cart products id delta = cart := by
  induction cart with
  | nil => rfl
  | cons x t ih =>
    unfold updateQuantity
    rw [List.map_cons, if_neg (by simp [hno x (List.mem_cons_self x t)]),
      List.filter_cons_of_pos (by simpa using hpos x (List.mem_cons_self x t))]
    have := ih (fun i hi => hpos i (List.mem_cons_of_mem x hi))
      (fun i hi => hno i (List.mem_cons_of_mem x hi))
    unfold updateQuantity at this
    rw [this]

theorem updateQuantity_cons_skip (x : CartItem) (rest : List CartItem)
    (products : List Product) (id : String) (delta : Int)
    (hxid : (x.id == id) = false) (hxpos : 0 < x.quantity) :
    updateQuantity (x :: rest) products id delta =
      x :: updateQuantity rest products id delta := by
  unfold updateQuantity
  rw [List.map_cons, if_neg (by simp [hxid]),
    List.filter_cons_of_pos (by simpa using hxpos)]

theorem updateQuantity_eq (cart : List CartItem) (products : List Product)
    (id : String) (delta : Int) (item : CartItem) (product : Product)
    (hnd : (cart.map (fun i => i.id)).Nodup)
    (hpos : ∀ i ∈ cart, 0 < i.quantity)
    (hmem : item ∈ cart) (hid : item.id = id)
    (hfind : products.find? (fun p => p.id == id) = some product) :
    updateQuantity cart products id delta =
      if product.stock < item.quantity + delta then cart
      else if 0 < item.quantity + delta then
        cart.map (fun i => if i.id == id then
          { i with quantity := item.quantity + delta } else i)
      else cart.filter (fun i => !(i.id == id)) := by
  induction cart with
  | nil => cases hmem
  | cons x rest ih =>
    rw [List.map_cons, List.nodup_cons] at hnd
    rcases List.mem_cons.mp hmem with rfl | hrest
    · have hno : ∀ i ∈ rest, (i.id == id) = false := by
        intro i hi
        rw [beq_eq_false_iff_ne]
        intro hiid
        apply hnd.1
        rw [hid, ← hiid]
        exact List.mem_map_of_mem (fun i => i.id) hi
      have hposr : ∀ i ∈ rest, 0 < i.quantity :=
        fun i hi => hpos i (List.mem_cons_of_mem item hi)
      have hxid : (item.id == id) = true := beq_iff_eq.mpr hid
      have hkeep : List.filter (fun i => decide (0 < i.quantity)) rest = rest :=
        List.filter_eq_self.mpr fun a ha => by simpa using hposr a ha
      unfold updateQuantity
      rw [List.map_cons, if_pos hxid, hfind,
        map_skip_of_no_match id _ rest hno]
      dsimp only
      by_cases h1 : product.stock < item.quantity + delta
      · rw [if_pos h1, if_pos h1,
          List.filter_cons_of_pos (by
            simpa using hpos item (List.mem_cons_self item rest)), hkeep]
      · rw [if_neg h1, if_neg h1]
        by_cases h2 : 0 < item.quantity + delta
        · have hmax : max 0 (item.quantity + delta) = item.quantity + delta :=
            max_eq_right (le_of_lt h2)
          rw [if_pos h2, hmax,
            List.filter_cons_of_pos (by simpa using h2), hkeep,
            List.map_cons, if_pos hxid,
            map_skip_of_no_match id _ rest hno]
        · have hmax : max 0 (item.quantity + delta) = 0 :=
            max_eq_left (by omega)
          rw [if_neg h2, hmax,
            List.filter_cons_of_neg (by simp), hkeep,
            List.filter_cons_of_neg (by simp [hxid]),
            List.filter_eq_self.mpr (fun a ha => by simp [hno a ha])]
    · have hxid : (x.id == id) = false := by
        rw [beq_eq_false_iff_ne]
        intro hxeq
        apply hnd.1
        rw [hxeq, ← hid]
        exact List.mem_map_of_mem (fun i => i.id) hrest
      rw [updateQuantity_cons_skip x rest products id delta hxid
        (hpos x (List.mem_cons_self x rest)),
        ih hnd.2 (fun i hi => hpos i (List.mem_cons_of_mem x hi)) hrest]
      by_cases h1 : product.stock < item.quantity + delta
      · rw [if_pos h1, if_pos h1]
      · rw [if_neg h1, if_neg h1]
        by_cases h2 : 0 < item.quantity + delta
        · rw [if_pos h2, if_pos h2, List.map_cons, if_neg (by simp [hxid])]
        · rw [if_neg h2, if_neg h2,
            List.filter_cons_of_pos (by simp [hxid])]

/-! ### Closed form for repeated addToCart -/

theorem addToCart_nil (product : Product) :
    addToCart [] product =
      if product.stock ≤ 0 then []
      else [{ toProduct := product, quantity := 1 }] := rfl

theorem addToCart_cons_self (product : Product) (q : Int) :
    addToCart [{ toProduct := product, quantity := q }] product =
      if product.stock ≤ q then [{ toProduct := product, quantity := q }]
      else [{ toProduct := product, quantity := q + 1 }] := by
  have hbeq : (({ toProduct := product, quantity := q } : CartItem).id ==
      product.id) = true := by simp
  unfold addToCart
  rw [List.find?_cons, hbeq]
  dsimp only
  by_cases h : product.stock ≤ q
  · rw [if_pos h, if_pos h]
  · rw [if_neg h, if_neg h, List.map_cons, if_pos (by simp), List.map_nil]

theorem addTimes_eq (product : Product) (h0 : 0 ≤ product.stock) :
    ∀ n : Nat, addTimes product n =
      if min (n : Int) product.stock ≤ 0 then []
      else [{ toProduct := product, quantity := min (n : Int) product.stock }]
  | 0 => by
    simp only [addTimes]
    rw [if_pos (show min ((0 : Nat) : Int) product.stock ≤ 0 by
      push_cast
      omega)]
  | n + 1 => by
    simp only [addTimes]
    rw [addTimes_eq product h0 n]
    by_cases h1 : min (n : Int) product.stock ≤ 0
    · rw [if_pos h1, addToCart_nil]
      by_cases hs : product.stock ≤ 0
      · rw [if_pos hs,
          if_pos (show min ((n + 1 : Nat) : Int) product.stock ≤ 0 by
            push_cast
            omega)]
      · rw [if_neg hs,
          if_neg (show ¬ min ((n + 1 : Nat) : Int) product.stock ≤ 0 by
            push_cast
            omega)]
        have hmin : min ((n + 1 : Nat) : Int) product.stock = 1 := by
          push_cast
          omega
        rw [hmin]
    · rw [if_neg h1, addToCart_cons_self]
      by_cases h2 : product.stock ≤ min (n : Int) product.stock
      · rw [if_pos h2,
          if_neg (show ¬ min ((n + 1 : Nat) : Int) product.stock ≤ 0 by
            push_cast
            omega)]
        have hmin : min ((n + 1 : Nat) : Int) product.stock =
            min (n : Int) product.stock := by
          push_cast
          omega
        rw [hmin]
      · rw [if_neg h2,
          if_neg (show ¬ min ((n + 1 : Nat) : Int) product.stock ≤ 0 by
            push_cast
            omega)]
        have hmin : min ((n + 1 : Nat) : Int) product.stock =
            min (n : Int) product.stock + 1 := by
          push_cast
          omega
        rw [hmin]

/-! ### Concrete store fixtures used by witnesses and counterexamples -/

/-- A sample product with five units of stock. -/
def prodA : Product :=
  { id := "p1", name := "Chips", price := 10, category := "Munchies",
    stock := 5 }

/-- A cart line for prodA with the given quantity. -/
def itemA (q : Int) : CartItem := { toProduct := prodA, quantity := q }

/-- A store holding prodA and no orders. -/
def dbA : DBState := { products := [prodA], orders := [] }

/-- A cart line whose product id is absent from dbA. -/
def ghostItem : CartItem :=
  { id := "p404", name := "Ghost", price := 1, category := "Tech",
    stock := 99, quantity := 1 }

/-! ### C1 -/

/-- C1: whenever some line of a placeOrder call requests more than that
product's current stock in the store, placeOrder fails with a
stock-insufficiency error and the store — every product's stock and the
order table — is left exactly as it was before the call. -/
theorem placeOrder_insufficient_stock_aborts (s : DBState) (c : Call)
    (h : ∃ i ∈ c.items, ∃ p,
      s.products.find? (fun x => x.id == i.id) = some p ∧
      p.stock < i.quantity) :
    (∃ nm left, placeOrder s c.userId c.items c.deliveryDetails c.totalAmount
      c.freshId c.now = Except.error (OrderError.insufficientStock nm left)) ∧
    applyCall s c = s := by
  obtain ⟨i, hi, p, hfind, hlt⟩ := h
  have hfail : itemFails s.products i = true := by
    unfold itemFails
    rw [hfind]
    exact decide_eq_true hlt
  obtain ⟨e, he⟩ := validateItems_ne_none s.products c.items i hi hfail
  cases e with
  | insufficientStock nm left =>
    have herr : placeOrder s c.userId c.items c.deliveryDetails c.totalAmount
        c.freshId c.now =
        Except.error (OrderError.insufficientStock nm left) := by
      unfold placeOrder
      rw [he]
    exact ⟨⟨nm, left, herr⟩, applyCall_of_error herr⟩

/-- Witness for C1 at a concrete store: a single line requesting 9 units of
a product with stock 5. -/
theorem placeOrder_insufficient_stock_aborts_witness :
    (∃ nm left, placeOrder dbA "u1" [itemA 9] ⟨"H", "12"⟩ 90 "X1" "T" =
      Except.error (OrderError.insufficientStock nm left)) ∧
    applyCall dbA ⟨"u1", [itemA 9], ⟨"H", "12"⟩, 90, "X1", "T"⟩ = dbA :=
  placeOrder_insufficient_stock_aborts dbA
    ⟨"u1", [itemA 9], ⟨"H", "12"⟩, 90, "X1", "T"⟩
    ⟨itemA 9, by decide, prodA, by decide, by decide⟩

/-! ### C3 -/

/-- C3 (amended): placeOrder performs no input validation: a call with an
empty lines list — and any destination, including empty hostel and room
strings — is not rejected; it succeeds, leaves the products table
unchanged, and appends a confirmed order with no items. -/
theorem placeOrder_empty_lines_accepted (s : DBState) (userId : String)
    (d : DeliveryDetails) (t : Int) (f now : String) :
    placeOrder s userId [] d t f now =
      Except.ok
        ({ products := s.products
           orders := s.orders ++
             [{ id := "ORD-" ++ f, userId := userId, items := [],
                totalAmount := t, status := OrderStatus.confirmed,
                createdAt := now, deliveryDetails := d }] },
         { id := "ORD-" ++ f, userId := userId, items := [], totalAmount := t,
           status := OrderStatus.confirmed, createdAt := now,
           deliveryDetails := d }) := by
  unfold placeOrder
  rw [show validateItems s.products ([] : List CartItem) = none from rfl]
  dsimp only
  rw [deductStock_nil]

/-- C3 counterexample: at a concrete store, a call with an empty lines list
and empty destination strings is not rejected before store access — it
returns ok and an order is created. -/
theorem placeOrder_empty_lines_cex :
    (placeOrder dbA "u1" [] ⟨"", ""⟩ 0 "X1" "T").isOk = true ∧
    (applyCall dbA ⟨"u1", [], ⟨"", ""⟩, 0, "X1", "T"⟩).orders.length = 1 :=
  ⟨rfl, rfl⟩

/-! ### C4 -/

/-- C4 (amended): placeOrder records the caller-supplied total verbatim:
every committed order's totalAmount equals the totalAmount argument, and no
check against the sum of line price times quantity is performed. -/
theorem placeOrder_total_unvalidated (s : DBState) (uid : String)
    (items : List CartItem) (d : DeliveryDetails) (t : Int) (f now : String)
    (s2 : DBState) (o : Order)
    (h : placeOrder s uid items d t f now = Except.ok (s2, o)) :
    o.totalAmount = t := by
  rw [(placeOrder_ok_shape h).2.2.1]

/-- The order committed by the C4 witness call. -/
def ordT : Order :=
  { id := "ORD-X1", userId := "u1", items := [], totalAmount := 999,
    status := OrderStatus.confirmed, createdAt := "T",
    deliveryDetails := ⟨"H", "1"⟩ }

/-- The store after the C4 witness call. -/
def dbT : DBState := { products := [prodA], orders := [ordT] }

/-- Witness for C4: an order committed with supplied total 999 records 999. -/
theorem placeOrder_total_unvalidated_witness : ordT.totalAmount = 999 :=
  placeOrder_total_unvalidated dbA "u1" [] ⟨"H", "1"⟩ 999 "X1" "T" dbT ordT rfl

/-- The spec's committed-total formula, for comparison with the code: the
sum over line items of price times quantity. -/
def specLineTotal (items : List CartItem) : Int :=
  (items.map (fun i => i.price * i.quantity)).sum

/-- The order committed by the C4 counterexample call. -/
def ordMis : Order :=
  { id := "ORD-X1", userId := "u1", items := [itemA 2], totalAmount := 999,
    status := OrderStatus.confirmed, createdAt := "T",
    deliveryDetails := ⟨"H", "1"⟩ }

/-- The store after the C4 counterexample call. -/
def dbMis : DBState :=
  { products := [{ prodA with stock := 3 }], orders := [ordMis] }

/-- C4 counterexample: a call whose lines are worth 20 but whose supplied
total is 999 commits successfully, and the stored totalAmount is 999 — not
the line-item sum, which is never validated. -/
theorem placeOrder_total_mismatch_cex :
    placeOrder dbA "u1" [itemA 2] ⟨"H", "1"⟩ 999 "X1" "T" =
      Except.ok (dbMis, ordMis) ∧
    specLineTotal ordMis.items = 20 ∧
    ordMis.totalAmount ≠ specLineTotal ordMis.items :=
  ⟨rfl, by decide, by decide⟩

/-! ### C10 -/

/-- C10: a placeOrder call whose first line references a product id absent
from the products table fails with the same stock-insufficiency error as an
out-of-stock product — reporting a remaining stock of 0 — and the store is
left unchanged; OrderError has a single constructor, so no distinct
missing-product error exists. -/
theorem placeOrder_missing_product (s : DBState) (uid : String)
    (i : CartItem) (rest : List CartItem) (d : DeliveryDetails) (t : Int)
    (f now : String)
    (h : s.products.find? (fun p => p.id == i.id) = none) :
    placeOrder s uid (i :: rest) d t f now =
      Except.error (OrderError.insufficientStock i.name 0) ∧
    applyCall s ⟨uid, i :: rest, d, t, f, now⟩ = s := by
  have hfail : itemFails s.products i = true := by
    unfold itemFails
    rw [h]
  have hv : validateItems s.products (i :: rest) =
      some (OrderError.insufficientStock i.name 0) := by
    unfold validateItems
    rw [if_pos hfail, h]
    rfl
  have herr : placeOrder s uid (i :: rest) d t f now =
      Except.error (OrderError.insufficientStock i.name 0) := by
    unfold placeOrder
    rw [hv]
  exact ⟨herr, applyCall_of_error herr⟩

/-- Witness for C10: ordering a product id not present in the store. -/
theorem placeOrder_missing_product_witness :
    placeOrder dbA "u1" [ghostItem] ⟨"H", "1"⟩ 1 "X9" "T" =
      Except.error (OrderError.insufficientStock "Ghost" 0) ∧
    applyCall dbA ⟨"u1", [ghostItem], ⟨"H", "1"⟩, 1, "X9", "T"⟩ = dbA :=
  placeOrder_missing_product dbA "u1" ghostItem [] ⟨"H", "1"⟩ 1 "X9" "T"
    (by decide)

/-! ### C2 -/

/-- C2 (amended): starting from a store that satisfies the global stock
invariant and whose product ids are distinct, every sequence of placeOrder
calls in which no single call lists the same product id twice preserves the
invariant: after each completed call every product's stock is nonnegative
and equals its original stock minus the summed quantities of all confirmed
orders referencing it.  With duplicate lines in one call the equality
fails, see the counterexample. -/
theorem placeOrder_sequence_invariant (orig : String → Int) (s : DBState)
    (cs : List Call)
    (hids : (s.products.map (fun p => p.id)).Nodup)
    (hinv : StockInvariant orig s)
    (hcs : ∀ c ∈ cs, (c.items.map (fun i => i.id)).Nodup) :
    StockInvariant orig (applyCalls s cs) := by
  revert hids hinv hcs
  induction cs generalizing s with
  | nil =>
    intro _ hinv _
    exact hinv
  | cons c cs ih =>
    intro hids hinv hcs
    exact ih (applyCall s c)
      (by rw [applyCall_id_map]; exact hids)
      (applyCall_invariant orig s c hids (hcs c (List.mem_cons_self c cs))
        hinv)
      (fun c2 hc2 => hcs c2 (List.mem_cons_of_mem c hc2))

/-- The well-behaved call of the C2 witness: a single line of quantity 2. -/
def callA : Call := ⟨"u1", [itemA 2], ⟨"H", "12"⟩, 20, "X1", "T"⟩

/-- Witness for C2: the invariant survives a concrete valid call. -/
theorem placeOrder_sequence_invariant_witness :
    StockInvariant (fun _ => 5) (applyCalls dbA [callA]) :=
  placeOrder_sequence_invariant (fun _ => 5) dbA [callA] (by decide)
    (by decide) (by decide)

/-- The duplicate-line call of the C2 counterexample: the same product
listed twice, 3 units each, against stock 5. -/
def callDup : Call := ⟨"u1", [itemA 3, itemA 3], ⟨"H", "1"⟩, 60, "X2", "T"⟩

/-- C2 counterexample: from an invariant-satisfying store, one placeOrder
call with two lines for the same product commits an order recording 6 units
while deducting only 3, so the final stock (2) no longer equals original
stock minus confirmed quantities (5 - 6). -/
theorem stock_invariant_violated_cex :
    StockInvariant (fun _ => 5) dbA ∧
    ¬ StockInvariant (fun _ => 5) (applyCalls dbA [callDup]) :=
  ⟨by decide, by decide⟩

/-! ### C8 -/

/-- C8: every order returned by a successful placeOrder has status
confirmed, an id that is exactly "ORD-" followed by the fresh suffix — a
prefix distinct from product and user ids — and records its line items and
timestamp as an immutable snapshot: the order remains in the order store,
unchanged, under every sequence of later placeOrder calls (the only
operations that mutate products), since orders are only ever appended. -/
theorem placeOrder_snapshot (s : DBState) (uid : String)
    (items : List CartItem) (d : DeliveryDetails) (t : Int) (f now : String)
    (s2 : DBState) (o : Order)
    (h : placeOrder s uid items d t f now = Except.ok (s2, o)) :
    o.status = OrderStatus.confirmed ∧ o.id = "ORD-" ++ f ∧
    o.items = items ∧ o.createdAt = now ∧
    ∀ cs : List Call, o ∈ (applyCalls s2 cs).orders := by
  obtain ⟨hprod, hord, ho, hval⟩ := placeOrder_ok_shape h
  subst ho
  refine ⟨rfl, rfl, rfl, rfl, fun cs => mem_orders_applyCalls s2 cs ?_⟩
  rw [hord]
  exact List.mem_append_right _ (List.mem_singleton.mpr rfl)

/-- The order committed by the C8 witness call. -/
def ordA : Order :=
  { id := "ORD-X1", userId := "u1", items := [itemA 2], totalAmount := 20,
    status := OrderStatus.confirmed, createdAt := "T",
    deliveryDetails := ⟨"H", "12"⟩ }

/-- The store after the C8 witness call. -/
def dbAfterA : DBState :=
  { products := [{ prodA with stock := 3 }], orders := [ordA] }

/-- A later call that mutates prodA's stock again. -/
def callB : Call := ⟨"u2", [itemA 1], ⟨"H", "2"⟩, 10, "X2", "T2"⟩

/-- Witness for C8: the committed order is confirmed and survives a later
stock-mutating call unchanged. -/
theorem placeOrder_snapshot_witness :
    ordA.status = OrderStatus.confirmed ∧
    ordA ∈ (applyCalls dbAfterA [callB]).orders := by
  have h := placeOrder_snapshot dbA "u1" [itemA 2] ⟨"H", "12"⟩ 20 "X1" "T"
    dbAfterA ordA rfl
  exact ⟨h.1, h.2.2.2.2 [callB]⟩

/-! ### C9 -/

/-- C9: a call whose two lines share one product id is validated line by
line against the same single stock read and commits whenever each line
individually fits the stock; the committed order records both entries, yet
the product's stock is decremented by only the first entry's quantity — so
the recorded quantities can exceed the amount actually deducted. -/
theorem placeOrder_duplicate_lines (s : DBState) (uid : String)
    (i1 i2 : CartItem) (d : DeliveryDetails) (t : Int) (f now : String)
    (pr : Product)
    (h12 : i2.id = i1.id)
    (hfind : s.products.find? (fun p => p.id == i1.id) = some pr)
    (hq1 : i1.quantity ≤ pr.stock) (hq2 : i2.quantity ≤ pr.stock) :
    ∃ s2 o, placeOrder s uid [i1, i2] d t f now = Except.ok (s2, o) ∧
      o.items = [i1, i2] ∧
      itemsQty o.items i1.id = i1.quantity + i2.quantity ∧
      stockOf s2.products i1.id = pr.stock - i1.quantity := by
  have hf1 : itemFails s.products i1 = false := by
    unfold itemFails
    rw [hfind]
    exact decide_eq_false (not_lt.mpr hq1)
  have hf2 : itemFails s.products i2 = false := by
    unfold itemFails
    rw [h12, hfind]
    exact decide_eq_false (not_lt.mpr hq2)
  have hval : validateItems s.products [i1, i2] = none := by
    rw [validateItems_eq_none_iff]
    intro i hi
    rcases List.mem_cons.mp hi with rfl | hi2
    · exact hf1
    · rcases List.mem_cons.mp hi2 with rfl | h3
      · exact hf2
      · cases h3
  cases hres : placeOrder s uid [i1, i2] d t f now with
  | error e =>
    exfalso
    unfold placeOrder at hres
    rw [hval] at hres
    cases hres
  | ok p2 =>
    obtain ⟨s2, o⟩ := p2
    obtain ⟨hprod, hord, ho, _⟩ := placeOrder_ok_shape hres
    subst ho
    refine ⟨s2, _, rfl, rfl, ?_, ?_⟩
    · show itemsQty [i1, i2] i1.id = i1.quantity + i2.quantity
      unfold itemsQty
      rw [List.filter_cons_of_pos (by simp),
        List.filter_cons_of_pos (by simp [h12]), List.filter_nil]
      simp
    · rw [hprod]
      unfold stockOf
      rw [find?_deductStock, hfind, Option.map_some']
      have hprid : pr.id = i1.id := by
        have h4 := List.find?_some hfind
        simpa using h4
      have hded : deductOne [i1, i2] pr =
          { pr with stock := pr.stock - i1.quantity } := by
        unfold deductOne
        rw [show List.find? (fun i => i.id == pr.id)
            ([i1, i2] : List CartItem) = some i1 from by
          rw [List.find?_cons]
          simp [hprid]]
      rw [hded]

/-- Witness for C9: two lines of 3 units each against stock 5 commit,
recording 6 units while deducting 3. -/
theorem placeOrder_duplicate_lines_witness :
    ∃ s2 o, placeOrder dbA "u1" [itemA 3, itemA 3] ⟨"H", "1"⟩ 60 "X2" "T" =
        Except.ok (s2, o) ∧
      o.items = [itemA 3, itemA 3] ∧
      itemsQty o.items "p1" = 6 ∧
      stockOf s2.products "p1" = 2 :=
  placeOrder_duplicate_lines dbA "u1" (itemA 3) (itemA 3) ⟨"H", "1"⟩ 60 "X2"
    "T" prodA rfl (by decide) (by decide) (by decide)

/-! ### C5 -/

/-- C5 (amended): getUserOrders returns exactly the stored orders whose
userId matches the requested id case-insensitively, sorted by descending
createdAt; equal timestamps may tie, and whenever the matching orders carry
pairwise-distinct timestamps the sequence is strictly descending. -/
theorem getUserOrders_filter_sorted (s : DBState) (userId : String) :
    (∀ o : Order, o ∈ getUserOrders s userId ↔
      o ∈ s.orders ∧ eqIgnoreCase o.userId userId = true) ∧
    List.Pairwise createdDesc (getUserOrders s userId) ∧
    (((s.orders.filter fun o => eqIgnoreCase o.userId userId).map
        (fun o => o.createdAt)).Nodup →
      List.Pairwise (fun a b => createdDesc a b ∧ a.createdAt ≠ b.createdAt)
        (getUserOrders s userId)) := by
  have hperm : (getUserOrders s userId).Perm
      (s.orders.filter fun o => eqIgnoreCase o.userId userId) :=
    List.perm_insertionSort createdDesc _
  refine ⟨?_, ?_, ?_⟩
  · intro o
    rw [hperm.mem_iff, List.mem_filter]
  · exact List.sorted_insertionSort createdDesc _
  · intro hnd
    have hne : List.Pairwise (fun a b : Order => a.createdAt ≠ b.createdAt)
        (s.orders.filter fun o => eqIgnoreCase o.userId userId) :=
      List.pairwise_map.mp hnd
    have hne2 : List.Pairwise (fun a b : Order => a.createdAt ≠ b.createdAt)
        (getUserOrders s userId) :=
      hne.perm hperm.symm fun h => Ne.symm h
    exact (List.sorted_insertionSort createdDesc _).and hne2

/-- An items-free confirmed order of the given id, user and timestamp. -/
def mkOrd (oid uid ts : String) : Order :=
  { id := oid, userId := uid, items := [], totalAmount := 0,
    status := OrderStatus.confirmed, createdAt := ts,
    deliveryDetails := ⟨"H", "1"⟩ }

/-- A store with three orders: two match "alice" case-insensitively, with
distinct timestamps. -/
def db5 : DBState :=
  { products := []
    orders := [mkOrd "ORD-A" "Alice" "2024-01-01T10:00:00.000Z",
               mkOrd "ORD-B" "bob" "2024-01-02T10:00:00.000Z",
               mkOrd "ORD-C" "ALICE" "2024-01-03T10:00:00.000Z"] }

/-- Witness for C5: with distinct timestamps the listing for "alice" is
strictly descending. -/
theorem getUserOrders_filter_sorted_witness :
    List.Pairwise (fun a b => createdDesc a b ∧ a.createdAt ≠ b.createdAt)
      (getUserOrders db5 "alice") :=
  (getUserOrders_filter_sorted db5 "alice").2.2 (by decide)

/-- A store with two orders of one user sharing the same createdAt. -/
def dbTie : DBState :=
  { products := []
    orders := [mkOrd "ORD-1" "u7" "2024-01-01T10:00:00.000Z",
               mkOrd "ORD-2" "u7" "2024-01-01T10:00:00.000Z"] }

/-- C5 counterexample: two orders of the same user share one createdAt, so
the returned sequence is not strictly descending. -/
theorem getUserOrders_ties_cex :
    ¬ List.Pairwise (fun a b => createdDesc a b ∧ a.createdAt ≠ b.createdAt)
      (getUserOrders dbTie "u7") := by
  decide

/-! ### C6 -/

/-- C6 (amended): setQuantity adjusts the line's quantity by delta, but an
adjusted value exceeding the product's current stock is rejected outright —
the line keeps its old quantity, it is not clamped down to the stock; an
adjusted value of zero or below is clamped to zero and the line is removed
(so setQuantity(id, -100) on a line of quantity 2 removes the line); any
other adjusted value becomes the line's new quantity. -/
theorem updateQuantity_spec (cart : List CartItem) (products : List Product)
    (id : String) (delta : Int) (item : CartItem) (product : Product)
    (hnd : (cart.map (fun i => i.id)).Nodup)
    (hpos : ∀ i ∈ cart, 0 < i.quantity)
    (hmem : item ∈ cart) (hid : item.id = id)
    (hfind : products.find? (fun p => p.id == id) = some product) :
    (product.stock < item.quantity + delta →
      updateQuantity cart products id delta = cart) ∧
    (item.quantity + delta ≤ product.stock → 0 < item.quantity + delta →
      updateQuantity cart products id delta =
        cart.map (fun i => if i.id == id then
          { i with quantity := item.quantity + delta } else i)) ∧
    (item.quantity + delta ≤ product.stock → item.quantity + delta ≤ 0 →
      updateQuantity cart products id delta =
        cart.filter (fun i => !(i.id == id))) := by
  have h := updateQuantity_eq cart products id delta item product hnd hpos
    hmem hid hfind
  refine ⟨fun h1 => ?_, fun h1 h2 => ?_, fun h1 h2 => ?_⟩
  · rw [h, if_pos h1]
  · rw [h, if_neg (not_lt.mpr h1), if_pos h2]
  · rw [h, if_neg (not_lt.mpr h1), if_neg (by omega)]

/-- Witness for C6, the spec's own example: delta -100 on a line of
quantity 2 removes the line. -/
theorem updateQuantity_spec_witness :
    updateQuantity [itemA 2] [prodA] "p1" (-100) =
      List.filter (fun i => !(i.id == "p1")) [itemA 2] :=
  (updateQuantity_spec [itemA 2] [prodA] "p1" (-100) (itemA 2) prodA
    (by decide) (by decide) (by decide) (by decide) (by decide)).2.2
    (by decide) (by decide)

/-- C6 counterexample: with quantity 2, stock 5 and delta 10 the claim's
clamped quantity would be 5, but the code leaves the quantity at 2. -/
theorem updateQuantity_no_clamp_cex :
    cartQuantity (updateQuantity [itemA 2] [prodA] "p1" 10) "p1" = 2 ∧
    min (cartQuantity [itemA 2] "p1" + 10) prodA.stock = 5 ∧ (2 : Int) ≠ 5 :=
  ⟨by decide, by decide, by decide⟩

/-! ### C7 -/

/-- C7: addToCart increments an existing line only when the line's current
quantity is below product.stock, inserts an absent product at quantity 1
only when the stock is positive, and in every other case returns the cart
unchanged, a silent no-op; consequently n repeated adds starting from the
empty cart reach quantity exactly min n stock. -/
theorem addToCart_spec (cart : List CartItem) (product : Product) :
    (∀ ex, cart.find? (fun i => i.id == product.id) = some ex →
      product.stock ≤ ex.quantity → addToCart cart product = cart) ∧
    (∀ ex, cart.find? (fun i => i.id == product.id) = some ex →
      ex.quantity + 1 ≤ product.stock →
      addToCart cart product = cart.map (fun i =>
        if i.id == product.id then { i with quantity := i.quantity + 1 }
        else i)) ∧
    (cart.find? (fun i => i.id == product.id) = none → product.stock ≤ 0 →
      addToCart cart product = cart) ∧
    (cart.find? (fun i => i.id == product.id) = none → 0 < product.stock →
      addToCart cart product =
        cart ++ [{ toProduct := product, quantity := 1 }]) ∧
    (0 ≤ product.stock → ∀ n : Nat,
      cartQuantity (addTimes product n) product.id =
        min (n : Int) product.stock) := by
  refine ⟨?_, ?_, ?_, ?_, ?_⟩
  · intro ex hf hle
    unfold addToCart
    rw [hf]
    dsimp only
    rw [if_pos hle]
  · intro ex hf hlt
    unfold addToCart
    rw [hf]
    dsimp only
    rw [if_neg (by omega)]
  · intro hf hle
    unfold addToCart
    rw [hf]
    dsimp only
    rw [if_pos hle]
  · intro hf hpos2
    unfold addToCart
    rw [hf]
    dsimp only
    rw [if_neg (by omega)]
  · intro h0 n
    rw [addTimes_eq product h0 n]
    by_cases h : min (n : Int) product.stock ≤ 0
    · rw [if_pos h]
      unfold cartQuantity
      rw [List.find?_nil]
      dsimp only
      omega
    · rw [if_neg h]
      unfold cartQuantity
      have hb : ((⟨product, min (n : Int) product.stock⟩ : CartItem).id ==
          product.id) = true := by simp
      rw [List.find?_cons, hb]

/-- A stock-3 product for the C7 witness. -/
def prod3 : Product :=
  { id := "p3", name := "Pen", price := 2, category := "Stationery",
    stock := 3 }

/-- Witness for C7: four adds of a stock-3 product cap the quantity at
min 4 3 = 3. -/
theorem addToCart_spec_witness :
    cartQuantity (addTimes prod3 4) prod3.id =
      min ((4 : Nat) : Int) prod3.stock :=
  (addToCart_spec [] prod3).2.2.2.2 (by decide) 4

end CampusDash
